import Mathlib

/-!
Verification of the optimistic-concurrency write/validation engine of the
catalog backend (the Auto/Buch resource families; the two families are the
same engine up to renaming, with `titel`/`isbn` in place of
`modell`/`modellnr`, so the Auto family is embedded and stands for both).

The service layer (auto-write.service.ts, the read service, the REST write
controller) is embedded directly from the TypeScript source.  Collaborators
that live outside the repository (the BSON identifier check, Mongoose update
casting, the `immutable` schema option and the version-key initialisation)
are modelled from the spec; each such definition is marked in its doc
comment.  The injected validation service is an abstract parameter
`validate : Auto → List String`, as in the source it is a separate injected
collaborator.
-/

set_option autoImplicit false

/-- Field values appearing in a Mongo update document: strings for the
schema's text attributes, integers for the version key. -/
inductive Value where
  | str : String → Value
  | int : Int → Value
deriving DecidableEq, Repr

/-- A document or update fragment as a list of named fields. -/
abbrev Fields := List (String × Value)

/-- First-match association lookup, as Mongo key access. -/
def alookup {β : Type} : List (String × β) → String → Option β
  | [], _ => none
  | (k, v) :: rest, key => if k = key then some v else alookup rest key

/-- Remove every binding of key `k` (JS `delete obj[k]`). -/
def eraseField (k : String) (f : Fields) : Fields :=
  f.filter (fun p => decide (p.1 ≠ k))

/-- Set key `k` to `v` (JS assignment `obj[k] = v`). -/
def setField (k : String) (v : Value) (f : Fields) : Fields :=
  (k, v) :: eraseField k f

/-- Integer-valued field access. -/
def getInt (k : String) (f : Fields) : Option Int :=
  match alookup f k with
  | some (.int n) => some n
  | _ => none

/-- String-valued field access. -/
def getStr (k : String) (f : Fields) : Option String :=
  match alookup f k with
  | some (.str s) => some s
  | _ => none

/-- The Auto entity (entity schema): the natural key `modell`
(required, unique), the external identifier `modellnr` (unique, immutable,
possibly absent from an update payload), and the remaining typed attributes
(verbrauch, typ, marke, preis, rabatt, lieferbar, datum, homepage,
herstellorte) abstracted as further named fields whose names are distinct
from the three distinguished keys. -/
structure Auto where
  modell : String
  modellnr : Option String
  weitere : List (String × String)
deriving DecidableEq, Repr

/-- A stored document: the schema fields plus the Mongoose version key
`__v`.  Modelled from the spec: Mongoose initialises `__v` to 0 when a new
document is saved. -/
structure AutoDoc where
  fields : Auto
  version : Int
deriving DecidableEq, Repr

/-- The persistent collection, keyed by the 24-character hexadecimal
identifier string. -/
abbrev Store := List (String × AutoDoc)

/-- `Model.findById`: first document stored under the identifier. -/
def Store.findById : Store → String → Option AutoDoc
  | [], _ => none
  | (k, d) :: rest, id => if k = id then some d else Store.findById rest id

/-- `Model.exists` on the natural key `modell`. -/
def Store.existsModell (s : Store) (m : String) : Bool :=
  s.any (fun p => p.2.fields.modell == m)

/-- `Model.exists` on the external identifier `modellnr` (exact match on
the stored value, an absent payload value only matching documents without
one). -/
def Store.existsModellnr (s : Store) (nr : Option String) : Bool :=
  s.any (fun p => p.2.fields.modellnr == nr)

/-- `Model.findOne` on `modell`, projecting the identifier of the first
matching document. -/
def Store.findOneModell : Store → String → Option String
  | [], _ => none
  | (k, d) :: rest, m => if d.fields.modell = m then some k else Store.findOneModell rest m

/-- `Model.findByIdAndDelete`: remove the document stored under the
identifier. -/
def Store.eraseId (s : Store) (id : String) : Store :=
  s.filter (fun p => decide (p.1 ≠ id))

/-- Replace the document stored under the identifier. -/
def Store.replaceId (s : Store) (id : String) (d : AutoDoc) : Store :=
  s.map (fun p => if p.1 = id then (p.1, d) else p)

/-- Hexadecimal digit. -/
def isHexDigit (c : Char) : Bool :=
  c.isDigit || ('a' ≤ c && c ≤ 'f') || ('A' ≤ c && c ≤ 'F')

/-- Modelled from the spec: `ObjectID.isValid` of the BSON library (not in
src/); per §6 of the spec, resource identifiers are 24-character
hexadecimal strings (12-byte binary ids), and a string of any other shape
is not a well-formed identifier. -/
def ObjectID.isValid (id : String) : Bool :=
  id.length == 24 && id.data.all isHexDigit

/-- A Mongo update query as the `findOneAndUpdate` pre-hook sees it: the
top-level plain fields, the optional operator groups `$set` and
`$setOnInsert`, and the optional `$inc` group. -/
structure UpdateQuery where
  doc : Fields
  set : Option Fields
  setOnInsert : Option Fields
  inc : Option Fields
deriving DecidableEq, Repr

/-- The wire payload of an update: the schema fields together with a
version key `__v` the caller may have put into the JSON body (the TS `Auto`
type does not declare it, but the body is not stripped of it). -/
structure UpdatePayload where
  auto : Auto
  versionField : Option Int
deriving DecidableEq, Repr

/-- The payload as a flat field list, `__v` included when supplied. -/
def UpdatePayload.toFields (p : UpdatePayload) : Fields :=
  ("modell", .str p.auto.modell)
    :: ((match p.auto.modellnr with
          | some nr => [("modellnr", Value.str nr)]
          | none => [])
        ++ p.auto.weitere.map (fun q => (q.1, Value.str q.2))
        ++ (match p.versionField with
             | some k => [("__v", Value.int k)]
             | none => []))

/-- Modelled from the spec: Mongoose casts the plain object passed to
`findByIdAndUpdate` into a pure `$set` update before applying it (library
behavior, not in src/). -/
def castUpdate (p : UpdatePayload) : UpdateQuery :=
  { doc := [], set := some p.toFields, setOnInsert := none, inc := none }

/-- One operator group as rewritten by the `optimistic` hook: the version
key is deleted, and a group left empty by that deletion is deleted from
the update (entity schema, the loop over `$set` and `$setOnInsert`;
an absent group is left absent). -/
def optimisticGroup : Option Fields → Option Fields
  | none => none
  | some g =>
      let g' := eraseField "__v" g
      if g'.isEmpty then none else some g'

/-- The `optimistic` pre-`findOneAndUpdate` hook installed on the entity
schema (part_009/part_011): the version key `__v` is deleted from the
top-level update document and from the `$set` and `$setOnInsert` groups,
and `$inc.__v = 1` is added so that the storage layer bumps the version by
exactly 1 atomically. -/
def optimistic (u : UpdateQuery) : UpdateQuery :=
  { doc := eraseField "__v" u.doc
    set := optimisticGroup u.set
    setOnInsert := optimisticGroup u.setOnInsert
    inc := some (setField "__v" (.int 1) (u.inc.getD [])) }

/-- The schema paths declared immutable in the entity schema: the external
identifier `modellnr` carries `immutable: true`. -/
def immutablePaths : List String := ["modellnr"]

/-- Modelled from the spec: how MongoDB applies a hooked update to a stored
document (library behavior, not in src/).  `$set` fields (and any top-level
plain fields) overwrite the stored attributes, except that Mongoose strips
immutable schema paths from an update so the stored value is retained; the
version is taken from a surviving `__v` field if one exists, and `$inc.__v`
is added to it. -/
def applyQuery (stored : AutoDoc) (q : UpdateQuery) : AutoDoc :=
  let s0 := q.doc ++ q.set.getD []
  let s := s0.filter (fun p => !(immutablePaths.contains p.1))
  let base : Int :=
    match getInt "__v" s with
    | some v => v
    | none => stored.version
  let incV : Int := (getInt "__v" (q.inc.getD [])).getD 0
  { fields :=
      { modell := (getStr "modell" s).getD stored.fields.modell
        modellnr := stored.fields.modellnr
        weitere := stored.fields.weitere.map
          (fun p =>
            match getStr p.1 s with
            | some v => (p.1, v)
            | none => p) }
    version := base + incV }

/-- `Model.findByIdAndUpdate(id, payload, new)` with the `optimistic`
plugin installed: the payload is cast to a `$set` update, rewritten by the
hook, and applied to the stored document; `none` when no document has the
identifier.  Returns the updated document (option `new`) and the new
store. -/
def Store.findByIdAndUpdate (store : Store) (id : String) (payload : UpdatePayload) :
    Option (AutoDoc × Store) :=
  match Store.findById store id with
  | none => none
  | some stored =>
      let newDoc := applyQuery stored (optimistic (castUpdate payload))
      some (newDoc, Store.replaceId store id newDoc)

/-- The error classes of the service (errors.ts), as one closed sum.
`autoInvalid` carries all violation messages; `modellExists` carries the
conflicting natural key and, when known, the owner's identifier;
`modellnrExists` carries the offending external identifier as supplied;
`versionInvalid` carries the raw offending token (or `none` when the token
was absent); `versionOutdated` carries the resource identifier and the
stale candidate version. -/
inductive AutoServiceError where
  | autoInvalid (messages : List String)
  | modellExists (modell : String) (id : Option String)
  | modellnrExists (modellnr : Option String)
  | autoNotExists (id : String)
  | versionInvalid (version : Option String)
  | versionOutdated (id : String) (version : Int)
deriving DecidableEq, Repr

/-- The result of the private natural-key check: the conflicting key and
the identifier of the document owning it. -/
structure ModellExists where
  modell : String
  id : String
deriving DecidableEq, Repr

/-- Result of the private version parse: a `VersionInvalid` error, or a JS
number (where `none` models `NaN`, the value `Number.parseInt` yields on an
empty digit string). -/
inductive VersionParse where
  | invalid (version : Option String)
  | value (n : Option Int)
deriving DecidableEq, Repr

/-- Continuation of `VERSION_PATTERN` after the opening quote: the RE2
pattern `\d*"` matches here exactly when some run of digits is followed by
a double quote, i.e. when the first non-digit character is a double
quote. -/
def versionPatternClose : List Char → Bool
  | [] => false
  | c :: cs => if c = '"' then true else if c.isDigit then versionPatternClose cs else false

/-- `VERSION_PATTERN.test`: the RE2 pattern starts with an anchor and a
double quote, is followed by zero or more digits and a closing double
quote, and is not anchored at the end, so trailing characters do not
matter. -/
def versionPatternTest : List Char → Bool
  | [] => false
  | c :: cs => if c = '"' then versionPatternClose cs else false

/-- JS `s.slice(1, -1)`: everything strictly between the first and the last
character. -/
def sliceInner (s : List Char) : List Char := (s.drop 1).dropLast

/-- Numeric value of a decimal digit character. -/
def digitVal (c : Char) : Nat := c.toNat - '0'.toNat

/-- Value of a run of decimal digits, most significant first. -/
def digitsVal (ds : List Char) : Nat :=
  ds.foldl (fun acc c => acc * 10 + digitVal c) 0

/-- Modelled from the spec: `Number.parseInt(s, 10)` of JS (not in src/):
leading whitespace is skipped, an optional sign is read, and the leading
run of decimal digits gives the value; without any digit the result is
`NaN`, modelled as `none`. -/
def parseIntJs (s : List Char) : Option Int :=
  let t := s.dropWhile Char.isWhitespace
  match t with
  | [] => none
  | c :: rest =>
      if c = '-' then
        let ds := rest.takeWhile Char.isDigit
        if ds.isEmpty then none else some (-(digitsVal ds : Int))
      else if c = '+' then
        let ds := rest.takeWhile Char.isDigit
        if ds.isEmpty then none else some ((digitsVal ds : Int))
      else
        let ds := t.takeWhile Char.isDigit
        if ds.isEmpty then none else some ((digitsVal ds : Int))

namespace AutoWriteService

/-- The private `#validateVersion` of `AutoWriteService`: an absent token
or one failing `VERSION_PATTERN` is a `VersionInvalid` carrying the raw
token; otherwise the token minus its first and last character is given to
`Number.parseInt`. -/
def validateVersion (versionStr : Option String) : VersionParse :=
  match versionStr with
  | none => .invalid none
  | some s =>
      if versionPatternTest s.data then .value (parseIntJs (sliceInner s.data))
      else .invalid (some s)

/-- The private `#checkIdAndVersion`: load the stored document (absent ⇒
`AutoNotExists`); reject with `VersionOutdated` exactly when the candidate
version is strictly below the stored one.  A `NaN` candidate (`none`)
compares false in JS and is therefore accepted. -/
def checkIdAndVersion (store : Store) (id : String) (version : Option Int) :
    Option AutoServiceError :=
  match Store.findById store id with
  | none => some (.autoNotExists id)
  | some autoDb =>
      match version with
      | none => none
      | some v => if v < autoDb.version then some (.versionOutdated id v) else none

/-- The private `#checkModellExists`: `findOne` on the payload's natural
key, yielding the conflicting key and its owner's identifier. -/
def checkModellExists (store : Store) (auto : Auto) : Option ModellExists :=
  match Store.findOneModell store auto.modell with
  | some ownerId => some { modell := auto.modell, id := ownerId }
  | none => none

/-- The private `#validateUpdate`: version parse, then validation, then the
natural-key check (a conflict owned by the resource itself is allowed),
then existence and version. -/
def validateUpdate (validate : Auto → List String) (store : Store)
    (auto : UpdatePayload) (id : String) (versionStr : Option String) :
    Option AutoServiceError :=
  match validateVersion versionStr with
  | .invalid v => some (.versionInvalid v)
  | .value version =>
      let validationMsg := validate auto.auto
      if validationMsg.length > 0 then some (.autoInvalid validationMsg)
      else
        match checkModellExists store auto.auto with
        | some resultModell =>
            if resultModell.id ≠ id then
              some (.modellExists resultModell.modell (some resultModell.id))
            else checkIdAndVersion store id version
        | none => checkIdAndVersion store id version

/-- The private `#validateCreate`: validation, then the natural-key
uniqueness check, then the external-identifier uniqueness check — two
independent storage checks in that order. -/
def validateCreate (validate : Auto → List String) (store : Store) (auto : Auto) :
    Option AutoServiceError :=
  let msg := validate auto
  if msg.length > 0 then some (.autoInvalid msg)
  else if Store.existsModell store auto.modell then some (.modellExists auto.modell none)
  else if Store.existsModellnr store auto.modellnr then some (.modellnrExists auto.modellnr)
  else none

/-- Outcome of `create`: an error, or the generated identifier. -/
inductive CreateResult where
  | err (e : AutoServiceError)
  | ok (id : String)
deriving DecidableEq, Repr

/-- Outcome of `update`: an error, or the new version number. -/
inductive UpdateResult where
  | err (e : AutoServiceError)
  | ok (versionUpdated : Int)
deriving DecidableEq, Repr

/-- `AutoWriteService.create`: on passing `#validateCreate`, the document
is saved with version 0 (Mongoose version-key initialisation) under the
freshly generated identifier `newId`, and a notification mail is sent
(fire and forget, no effect on the store). -/
def create (validate : Auto → List String) (store : Store) (auto : Auto)
    (newId : String) : CreateResult × Store :=
  match validateCreate validate store auto with
  | some e => (.err e, store)
  | none => (.ok newId, (newId, { fields := auto, version := 0 }) :: store)

/-- `AutoWriteService.update`: a syntactically invalid identifier is an
immediate `AutoNotExists`; then `#validateUpdate`; then
`findByIdAndUpdate`, whose `null` result is again `AutoNotExists` and
whose updated document supplies the returned version. -/
def update (validate : Auto → List String) (store : Store) (id : String)
    (auto : UpdatePayload) (versionStr : Option String) : UpdateResult × Store :=
  if !ObjectID.isValid id then (.err (.autoNotExists id), store)
  else
    match validateUpdate validate store auto id versionStr with
    | some e => (.err e, store)
    | none =>
        match Store.findByIdAndUpdate store id auto with
        | none => (.err (.autoNotExists id), store)
        | some (updated, store') => (.ok updated.version, store')

/-- `AutoWriteService.delete`: a syntactically invalid identifier yields
`false` without touching the store; otherwise `findByIdAndDelete`, with
`true` exactly when a document was removed. -/
def delete (store : Store) (idStr : String) : Bool × Store :=
  if !ObjectID.isValid idStr then (false, store)
  else
    match Store.findById store idStr with
    | none => (false, store)
    | some _ => (true, Store.eraseId store idStr)

end AutoWriteService

/-- The fixed allow-list of filterable fields (`exactFilterProperties` of
the entity module). -/
def exactFilterProperties : List String :=
  ["verbrauch", "typ", "marke", "preis", "rabatt", "lieferbar", "datum",
   "modellnr", "homepage"]

/-- The natural-key part of the built Mongo filter: a short criterion
becomes a case-insensitive containment regex, a long one an exact match. -/
inductive ModellFilter where
  | regexContains (pattern : String)
  | exact (modell : String)
  | keine
deriving DecidableEq, Repr

/-- The Mongo filter built by the read service: the remaining exact
criteria, the natural-key criterion, and the location tokens required by
the flag criteria. -/
structure DbQuery where
  dbFilter : List (String × String)
  modell : ModellFilter
  herstellorte : List String
deriving DecidableEq, Repr

namespace AutoReadService

/-- The private `#checkInvalidProperty`: some remaining criterion key lies
outside the allow-list. -/
def checkInvalidProperty (dbFilter : List (String × String)) : Bool :=
  (dbFilter.map Prod.fst).any (fun key => !(exactFilterProperties.contains key))

/-- Insertion into a list kept ascending by natural key. -/
def insertByModell (d : AutoDoc) : List AutoDoc → List AutoDoc
  | [] => [d]
  | e :: es =>
      if d.fields.modell ≤ e.fields.modell then d :: e :: es
      else e :: insertByModell d es

/-- The private `#findAll`: every document, ascending by natural key. -/
def findAll (store : Store) : List AutoDoc :=
  (store.map Prod.snd).foldr insertByModell []

/-- `AutoReadService.find`.  The criteria object arrives as key/value
pairs; an absent criteria object is the empty list.  The natural-key and
the two flag criteria are destructured away; if any remaining key is
outside the allow-list the result is the empty sequence without a storage
query; otherwise the built filter is handed to the storage backend, which
is the abstract parameter `runQuery` (MongoDB query execution is not code
of this repository). -/
def find (runQuery : Store → DbQuery → List AutoDoc) (store : Store)
    (filter : List (String × String)) : List AutoDoc :=
  if filter.length = 0 then findAll store
  else
    let modell := alookup filter "modell"
    let javascript := alookup filter "javascript"
    let typescript := alookup filter "typescript"
    let dbFilter := filter.filter
      (fun p => !(p.1 == "modell") && !(p.1 == "javascript") && !(p.1 == "typescript"))
    if checkInvalidProperty dbFilter then []
    else
      let dbModell : ModellFilter :=
        match modell with
        | some m => if m.length < 10 then .regexContains m else .exact m
        | none => .keine
      let orte :=
        (if javascript = some "true" then ["ESSLINGEN"] else []) ++
        (if typescript = some "true" then ["FRANKFURZ"] else [])
      runQuery store { dbFilter := dbFilter, modell := dbModell, herstellorte := orte }

end AutoReadService

/-- Outcome of the REST update handler: status 428 when the `If-Match`
header is absent (the spec's `MissingPrecondition`), a translated service
error, or status 204 with the new version in the `ETag` header. -/
inductive ControllerUpdateResult where
  | preconditionRequired
  | handled (e : AutoServiceError)
  | noContent (etag : String)
deriving DecidableEq, Repr

namespace AutoWriteController

/-- The REST `update` handler: an absent `If-Match` header is answered
with 428 before the service is called; otherwise the service outcome is
translated. -/
def update (validate : Auto → List String) (store : Store) (id : String)
    (auto : UpdatePayload) (version : Option String) : ControllerUpdateResult × Store :=
  match version with
  | none => (.preconditionRequired, store)
  | some v =>
      match AutoWriteService.update validate store id auto (some v) with
      | (.err e, s) => (.handled e, s)
      | (.ok n, s) => (.noContent ("\"" ++ toString n ++ "\""), s)

end AutoWriteController

/-- One engine operation on the store: a create under a fresh generated
identifier, an update, or a delete. -/
inductive Step (validate : Auto → List String) : Store → Store → Prop where
  | create (store : Store) (auto : Auto) (newId : String)
      (h : Store.findById store newId = none) :
      Step validate store (AutoWriteService.create validate store auto newId).2
  | update (store : Store) (id : String) (auto : UpdatePayload)
      (versionStr : Option String) :
      Step validate store (AutoWriteService.update validate store id auto versionStr).2
  | delete (store : Store) (id : String) :
      Step validate store (AutoWriteService.delete store id).2

lemma alookup_eraseField_self (k : String) (f : Fields) :
    alookup (eraseField k f) k = none := by
  induction f with
  | nil => rfl
  | cons a t ih =>
      rcases a with ⟨ka, va⟩
      by_cases h : ka = k
      · simpa [eraseField, List.filter_cons, h] using ih
      · simpa [eraseField, List.filter_cons, h, alookup] using ih

lemma alookup_filter_none {β : Type} (q : String × β → Bool) (l : List (String × β))
    (k : String) (h : alookup l k = none) : alookup (l.filter q) k = none := by
  induction l with
  | nil => rfl
  | cons a t ih =>
      rcases a with ⟨ka, va⟩
      by_cases hk : ka = k
      · simp [alookup, hk] at h
      · simp only [alookup, if_neg hk] at h
        by_cases hq : q (ka, va)
        · simpa [List.filter_cons, hq, alookup, hk] using ih h
        · simpa [List.filter_cons, hq] using ih h

lemma eraseField_toFields (p : UpdatePayload) :
    eraseField "__v" p.toFields =
      ("modell", Value.str p.auto.modell) :: eraseField "__v"
        ((match p.auto.modellnr with
           | some nr => [("modellnr", Value.str nr)]
           | none => [])
         ++ p.auto.weitere.map (fun q => (q.1, Value.str q.2))
         ++ (match p.versionField with
              | some k => [("__v", Value.int k)]
              | none => [])) := by
  simp [UpdatePayload.toFields, eraseField, List.filter_cons]

lemma optimistic_castUpdate_eq (p : UpdatePayload) :
    optimistic (castUpdate p) =
      { doc := [], set := some (eraseField "__v" p.toFields), setOnInsert := none,
        inc := some [("__v", Value.int 1)] } := by
  have hne : (eraseField "__v" p.toFields).isEmpty = false := by
    rw [eraseField_toFields]
    rfl
  simp only [optimistic, castUpdate, optimisticGroup, setField]
  rw [hne]
  simp [eraseField]

lemma getInt_none_of_alookup_none (k : String) (f : Fields)
    (h : alookup f k = none) : getInt k f = none := by
  simp [getInt, h]

lemma applyQuery_version (stored : AutoDoc) (p : UpdatePayload) :
    (applyQuery stored (optimistic (castUpdate p))).version = stored.version + 1 := by
  rw [optimistic_castUpdate_eq]
  unfold applyQuery
  simp only [Option.getD_some, List.nil_append]
  rw [getInt_none_of_alookup_none _ _
    (alookup_filter_none _ _ _ (alookup_eraseField_self "__v" p.toFields))]
  simp [getInt, alookup]

lemma applyQuery_modellnr (stored : AutoDoc) (q : UpdateQuery) :
    (applyQuery stored q).fields.modellnr = stored.fields.modellnr := rfl

lemma findByIdAndUpdate_some (store : Store) (id : String) (p : UpdatePayload)
    (d : AutoDoc) (h : Store.findById store id = some d) :
    Store.findByIdAndUpdate store id p =
      some (applyQuery d (optimistic (castUpdate p)),
            Store.replaceId store id (applyQuery d (optimistic (castUpdate p)))) := by
  simp [Store.findByIdAndUpdate, h]

lemma replaceId_cons (k : String) (v : AutoDoc) (t : Store) (id : String)
    (nd : AutoDoc) :
    Store.replaceId ((k, v) :: t) id nd =
      (if k = id then (k, nd) else (k, v)) :: Store.replaceId t id nd := by
  simp only [Store.replaceId, List.map_cons]

lemma findById_replaceId_self (s : Store) (id : String) (nd d : AutoDoc)
    (h : Store.findById s id = some d) :
    Store.findById (Store.replaceId s id nd) id = some nd := by
  induction s with
  | nil => simp [Store.findById] at h
  | cons a t ih =>
      rcases a with ⟨k, v⟩
      rw [replaceId_cons]
      by_cases hk : k = id
      · rw [if_pos hk]
        simp [Store.findById, hk]
      · rw [if_neg hk]
        simp only [Store.findById, if_neg hk] at h ⊢
        exact ih h

lemma findById_replaceId_ne (s : Store) (id id' : String) (nd : AutoDoc)
    (h : id ≠ id') :
    Store.findById (Store.replaceId s id' nd) id = Store.findById s id := by
  induction s with
  | nil => rfl
  | cons a t ih =>
      rcases a with ⟨k, v⟩
      rw [replaceId_cons]
      by_cases hk : k = id'
      · have hki : ¬ (k = id) := fun hh => h (hh.symm.trans hk)
        rw [if_pos hk]
        simp only [Store.findById, if_neg hki]
        exact ih
      · rw [if_neg hk]
        by_cases hki : k = id
        · simp [Store.findById, hki]
        · simp only [Store.findById, if_neg hki]
          exact ih

lemma findById_eraseId (s : Store) (t id : String) :
    Store.findById (Store.eraseId s t) id =
      if id = t then none else Store.findById s id := by
  induction s with
  | nil => simp [Store.eraseId, Store.findById]
  | cons a l ih =>
      rcases a with ⟨k, v⟩
      by_cases hk : k = t
      · have hres : Store.eraseId ((k, v) :: l) t = Store.eraseId l t := by
          simp [Store.eraseId, List.filter_cons, hk]
        rw [hres, ih]
        by_cases hit : id = t
        · simp [hit]
        · have hki : ¬ (k = id) := by
            rw [hk]
            exact fun hh => hit hh.symm
          simp [hit, Store.findById, hki]
      · have hres : Store.eraseId ((k, v) :: l) t = (k, v) :: Store.eraseId l t := by
          simp [Store.eraseId, List.filter_cons, hk]
        rw [hres]
        by_cases hki : k = id
        · have hit : ¬ (id = t) := by
            rw [← hki]
            exact fun hh => hk hh
          simp [Store.findById, hki, hit]
        · simp [Store.findById, hki, ih]

lemma update_of_validateUpdate_some (validate : Auto → List String) (store : Store)
    (id : String) (auto : UpdatePayload) (versionStr : Option String)
    (e : AutoServiceError) (hid : ObjectID.isValid id = true)
    (h : AutoWriteService.validateUpdate validate store auto id versionStr = some e) :
    AutoWriteService.update validate store id auto versionStr = (.err e, store) := by
  simp [AutoWriteService.update, hid, h]

lemma update_of_validateUpdate_none (validate : Auto → List String) (store : Store)
    (id : String) (auto : UpdatePayload) (versionStr : Option String) (doc : AutoDoc)
    (hid : ObjectID.isValid id = true)
    (hval : AutoWriteService.validateUpdate validate store auto id versionStr = none)
    (hfind : Store.findById store id = some doc) :
    AutoWriteService.update validate store id auto versionStr =
      (.ok (doc.version + 1),
       Store.replaceId store id (applyQuery doc (optimistic (castUpdate auto)))) := by
  simp [AutoWriteService.update, hid, hval, findByIdAndUpdate_some _ _ _ _ hfind,
    applyQuery_version]

lemma isWhitespace_of_isDigit (c : Char) (h : c.isDigit = true) :
    c.isWhitespace = false := by
  cases hw : c.isWhitespace
  · rfl
  · have hc : ((c = ' ' ∨ c = '\t') ∨ c = '\r') ∨ c = '\n' := by
      simpa [Char.isWhitespace] using hw
    rcases hc with ((h1 | h1) | h1) | h1 <;> subst h1 <;> exact absurd h (by decide)

lemma ne_dash_of_isDigit (c : Char) (h : c.isDigit = true) : ¬ (c = '-') :=
  fun hc => absurd h (by rw [hc]; decide)

lemma ne_plus_of_isDigit (c : Char) (h : c.isDigit = true) : ¬ (c = '+') :=
  fun hc => absurd h (by rw [hc]; decide)

lemma ne_quote_of_isDigit (c : Char) (h : c.isDigit = true) : ¬ (c = '"') :=
  fun hc => absurd h (by rw [hc]; decide)

lemma takeWhile_isDigit_of_all (ds : List Char) (h : ds.all Char.isDigit = true) :
    ds.takeWhile Char.isDigit = ds := by
  induction ds with
  | nil => rfl
  | cons c t ih =>
      simp only [List.all_cons, Bool.and_eq_true] at h
      simp [List.takeWhile_cons, h.1, ih h.2]

lemma parseIntJs_digits (ds : List Char) (hne : ds ≠ [])
    (h : ds.all Char.isDigit = true) :
    parseIntJs ds = some ((digitsVal ds : Int)) := by
  rcases ds with _ | ⟨c, t⟩
  · exact absurd rfl hne
  · have hall := h
    simp only [List.all_cons, Bool.and_eq_true] at h
    have hw : c.isWhitespace = false := isWhitespace_of_isDigit c h.1
    have hdrop : (c :: t).dropWhile Char.isWhitespace = c :: t := by
      simp [List.dropWhile_cons, hw]
    have htake : (c :: t).takeWhile Char.isDigit = c :: t :=
      takeWhile_isDigit_of_all _ hall
    simp [parseIntJs, hdrop, htake, ne_dash_of_isDigit c h.1,
      ne_plus_of_isDigit c h.1]

lemma versionPatternClose_digits (ds : List Char) (h : ds.all Char.isDigit = true) :
    versionPatternClose (ds ++ ['"']) = true := by
  induction ds with
  | nil => rfl
  | cons c t ih =>
      simp only [List.all_cons, Bool.and_eq_true] at h
      simp [versionPatternClose, ne_quote_of_isDigit c h.1, h.1, ih h.2]

lemma sliceInner_quoted (ds : List Char) :
    sliceInner ('"' :: (ds ++ ['"'])) = ds := by
  simp [sliceInner]

lemma create_ok_inv (validate : Auto → List String) (store : Store) (auto : Auto)
    (newId rid : String) (s' : Store)
    (h : AutoWriteService.create validate store auto newId = (.ok rid, s')) :
    rid = newId ∧ s' = (newId, { fields := auto, version := 0 }) :: store := by
  unfold AutoWriteService.create at h
  cases hvc : AutoWriteService.validateCreate validate store auto with
  | some e => rw [hvc] at h; simp at h
  | none =>
      rw [hvc] at h
      simp only [Prod.mk.injEq, AutoWriteService.CreateResult.ok.injEq] at h
      exact ⟨h.1.symm, h.2.symm⟩

lemma update_ok_inv (validate : Auto → List String) (store : Store) (id : String)
    (auto : UpdatePayload) (versionStr : Option String) (n : Int) (s' : Store)
    (doc : AutoDoc) (hdoc : Store.findById store id = some doc)
    (h : AutoWriteService.update validate store id auto versionStr = (.ok n, s')) :
    n = doc.version + 1 ∧
    s' = Store.replaceId store id (applyQuery doc (optimistic (castUpdate auto))) := by
  by_cases hvalid : ObjectID.isValid id = true
  · cases hvu : AutoWriteService.validateUpdate validate store auto id versionStr with
    | some e =>
        rw [update_of_validateUpdate_some validate store id auto versionStr e hvalid hvu]
          at h
        simp at h
    | none =>
        rw [update_of_validateUpdate_none validate store id auto versionStr doc hvalid
          hvu hdoc] at h
        simp only [Prod.mk.injEq, AutoWriteService.UpdateResult.ok.injEq] at h
        exact ⟨h.1.symm, h.2.symm⟩
  · have hb : ObjectID.isValid id = false := by
      cases hx : ObjectID.isValid id
      · rfl
      · exact absurd hx hvalid
    simp [AutoWriteService.update, hb] at h

lemma isValid_false_of_not_true (id : String) (h : ¬ ObjectID.isValid id = true) :
    ObjectID.isValid id = false := by
  cases hx : ObjectID.isValid id
  · rfl
  · exact absurd hx h

lemma step_version_mono (validate : Auto → List String) (s s' : Store)
    (hstep : Step validate s s') (id : String) (d d' : AutoDoc)
    (h : Store.findById s id = some d) (h' : Store.findById s' id = some d') :
    d.version ≤ d'.version := by
  cases hstep with
  | create auto newId hfresh =>
      unfold AutoWriteService.create at h'
      cases hvc : AutoWriteService.validateCreate validate s auto with
      | some e =>
          rw [hvc] at h'
          simp only [] at h'
          rw [h] at h'
          injection h' with hdd
          rw [hdd]
      | none =>
          rw [hvc] at h'
          simp only [] at h'
          by_cases hid : newId = id
          · rw [hid] at hfresh
            rw [h] at hfresh
            exact absurd hfresh (by simp)
          · simp only [Store.findById, if_neg hid] at h'
            rw [h] at h'
            injection h' with hdd
            rw [hdd]
  | update uid auto versionStr =>
      by_cases hvalid : ObjectID.isValid uid = true
      · cases hvu : AutoWriteService.validateUpdate validate s auto uid versionStr with
        | some e =>
            rw [update_of_validateUpdate_some validate s uid auto versionStr e
              hvalid hvu] at h'
            simp only [] at h'
            rw [h] at h'
            injection h' with hdd
            rw [hdd]
        | none =>
            cases hfind : Store.findById s uid with
            | none =>
                have heq : AutoWriteService.update validate s uid auto versionStr =
                    (.err (.autoNotExists uid), s) := by
                  simp [AutoWriteService.update, hvalid, hvu, Store.findByIdAndUpdate,
                    hfind]
                rw [heq] at h'
                simp only [] at h'
                rw [h] at h'
                injection h' with hdd
                rw [hdd]
            | some stored =>
                rw [update_of_validateUpdate_none validate s uid auto versionStr
                  stored hvalid hvu hfind] at h'
                simp only [] at h'
                by_cases hid : id = uid
                · subst hid
                  rw [findById_replaceId_self s id _ stored hfind] at h'
                  rw [h] at hfind
                  injection hfind with hds
                  injection h' with hdd
                  rw [← hdd, applyQuery_version, ← hds]
                  omega
                · rw [findById_replaceId_ne s id uid _ hid] at h'
                  rw [h] at h'
                  injection h' with hdd
                  rw [hdd]
      · have hb := isValid_false_of_not_true uid hvalid
        have heq : AutoWriteService.update validate s uid auto versionStr =
            (.err (.autoNotExists uid), s) := by
          simp [AutoWriteService.update, hb]
        rw [heq] at h'
        simp only [] at h'
        rw [h] at h'
        injection h' with hdd
        rw [hdd]
  | delete did =>
      by_cases hvalid : ObjectID.isValid did = true
      · cases hfind : Store.findById s did with
        | none =>
            have heq : AutoWriteService.delete s did = (false, s) := by
              simp [AutoWriteService.delete, hvalid, hfind]
            rw [heq] at h'
            simp only [] at h'
            rw [h] at h'
            injection h' with hdd
            rw [hdd]
        | some x =>
            have heq : AutoWriteService.delete s did =
                (true, Store.eraseId s did) := by
              simp [AutoWriteService.delete, hvalid, hfind]
            rw [heq] at h'
            simp only [] at h'
            rw [findById_eraseId] at h'
            by_cases hid : id = did
            · rw [if_pos hid] at h'
              exact absurd h' (by simp)
            · rw [if_neg hid] at h'
              rw [h] at h'
              injection h' with hdd
              rw [hdd]
      · have hb := isValid_false_of_not_true did hvalid
        have heq : AutoWriteService.delete s did = (false, s) := by
          simp [AutoWriteService.delete, hb]
        rw [heq] at h'
        simp only [] at h'
        rw [h] at h'
        injection h' with hdd
        rw [hdd]

/-- A validator collaborator that reports no violations (used to
instantiate the abstract validation service in concrete scenarios). -/
def validateNone : Auto → List String := fun _ => []

/-- A syntactically valid 24-character hexadecimal identifier. -/
def idA : String := "507f1f77bcf86cd799439011"

/-- A second, distinct valid identifier. -/
def idB : String := "507f1f77bcf86cd799439012"

/-- Sample resource Alpha. -/
def auto1 : Auto := { modell := "Alpha", modellnr := some "3897225831", weitere := [] }

/-- Sample candidate Beta. -/
def auto2 : Auto := { modell := "Beta", modellnr := some "3897225832", weitere := [] }

/-- A store holding Alpha under `idA` at version 5. -/
def store1 : Store := [(idA, { fields := auto1, version := 5 })]

/-- A second store: Alpha is owned by `idB` (and `idA` is unused). -/
def store2 : Store := [(idB, { fields := auto1, version := 0 })]

/-- Claim C1: for every update where the supplied version token parses to
an integer `v` and the stored target document carries version
`doc.version`, the version check rejects with `VersionOutdated` carrying
the resource id and `v` exactly when `v` is strictly behind the stored
version, and accepts — the update proceeds and returns the incremented
version — when `v` equals or exceeds it. -/
theorem update_version_check (validate : Auto → List String) (store : Store)
    (id : String) (auto : UpdatePayload) (versionStr : Option String)
    (v : Int) (doc : AutoDoc)
    (hid : ObjectID.isValid id = true)
    (hparse : AutoWriteService.validateVersion versionStr = .value (some v))
    (hvalidate : validate auto.auto = [])
    (hkey : AutoWriteService.checkModellExists store auto.auto = none)
    (hfind : Store.findById store id = some doc) :
    (v < doc.version →
      (AutoWriteService.update validate store id auto versionStr).1 =
        .err (.versionOutdated id v))
    ∧ (doc.version ≤ v →
      (AutoWriteService.update validate store id auto versionStr).1 =
        .ok (doc.version + 1)) := by
  have hvu : AutoWriteService.validateUpdate validate store auto id versionStr =
      AutoWriteService.checkIdAndVersion store id (some v) := by
    simp [AutoWriteService.validateUpdate, hparse, hvalidate, hkey]
  constructor
  · intro hlt
    have hcv : AutoWriteService.checkIdAndVersion store id (some v) =
        some (.versionOutdated id v) := by
      simp [AutoWriteService.checkIdAndVersion, hfind, hlt]
    rw [update_of_validateUpdate_some validate store id auto versionStr _ hid
      (hvu.trans hcv)]
  · intro hge
    have hcv : AutoWriteService.checkIdAndVersion store id (some v) = none := by
      simp [AutoWriteService.checkIdAndVersion, hfind, not_lt.mpr hge]
    rw [update_of_validateUpdate_none validate store id auto versionStr doc hid
      (hvu.trans hcv) hfind]

/-- Concrete instantiation of the C1 theorem on `store1` (Alpha stored at
version 5): the stale token is rejected as outdated, the current token is
accepted and yields version 6. -/
theorem update_version_check_apply :
    (AutoWriteService.update validateNone store1 idA
        { auto := auto2, versionField := none } (some "\"4\"")).1 =
      .err (.versionOutdated idA 4)
    ∧ (AutoWriteService.update validateNone store1 idA
        { auto := auto2, versionField := none } (some "\"5\"")).1 = .ok 6 := by
  constructor
  · exact (update_version_check validateNone store1 idA
      { auto := auto2, versionField := none } (some "\"4\"") 4
      { fields := auto1, version := 5 } (by decide) rfl rfl rfl rfl).1 (by decide)
  · exact (update_version_check validateNone store1 idA
      { auto := auto2, versionField := none } (some "\"5\"") 5
      { fields := auto1, version := 5 } (by decide) rfl rfl rfl rfl).2 (by decide)

/-- Claim C2 counterexample: the 2-character token consisting of two double
quotes — empty content between the quotes — is not rejected.
`VERSION_PATTERN` (zero or more digits) accepts it, `parseInt` of the empty
slice yields `NaN`, the version check treats `NaN` as current, and a whole
update carrying this token succeeds instead of failing with
`VersionInvalid` carrying the token. -/
theorem validateVersion_empty_content_accepted :
    AutoWriteService.validateVersion (some "\"\"") = .value none
    ∧ (AutoWriteService.update validateNone store1 idA
        { auto := auto2, versionField := none } (some "\"\"")).1 = .ok 6
    ∧ (AutoWriteService.update validateNone store1 idA
        { auto := auto2, versionField := none } (some "\"\"")).1 ≠
        .err (.versionInvalid (some "\"\"")) := by
  refine ⟨rfl, rfl, by decide⟩

/-- Claim C2 (amended): the parser rejects with `VersionInvalid` carrying
the raw token exactly those supplied tokens failing the prefix pattern — a
double quote, zero or more decimal digits, and a closing double quote,
trailing characters ignored.  A token that is a nonempty digit run wrapped
in double quotes yields its integer value; the empty-content token of two
double quotes is accepted as well, parsing to `NaN`. -/
theorem validateVersion_accepted_tokens :
    (∀ s : String,
       AutoWriteService.validateVersion (some s) = .invalid (some s) ↔
         versionPatternTest s.data = false)
    ∧ (∀ ds : List Char, ds ≠ [] → ds.all Char.isDigit = true →
        AutoWriteService.validateVersion (some (String.mk ('"' :: (ds ++ ['"'])))) =
          .value (some ((digitsVal ds : Int))))
    ∧ AutoWriteService.validateVersion (some "\"\"") = .value none := by
  refine ⟨?_, ?_, rfl⟩
  · intro s
    unfold AutoWriteService.validateVersion
    cases hp : versionPatternTest s.data
    · simp [hp]
    · simp [hp]
  · intro ds hne hall
    have hp : versionPatternTest ('"' :: (ds ++ ['"'])) = true := by
      simp [versionPatternTest, versionPatternClose_digits ds hall]
    have hred : AutoWriteService.validateVersion (some (String.mk ('"' :: (ds ++ ['"'])))) =
        if versionPatternTest ('"' :: (ds ++ ['"'])) = true then
          VersionParse.value (parseIntJs (sliceInner ('"' :: (ds ++ ['"']))))
        else VersionParse.invalid (some (String.mk ('"' :: (ds ++ ['"'])))) := rfl
    rw [hred, hp, if_pos rfl]
    rw [sliceInner_quoted ds, parseIntJs_digits ds hne hall]

/-- Concrete instantiation of the amended C2 theorem: the exactly-quoted
token holding the digit 7 parses to the integer 7. -/
theorem validateVersion_accepted_tokens_apply :
    AutoWriteService.validateVersion (some (String.mk ['"', '7', '"'])) =
      .value (some (7 : Int)) := by
  have h := validateVersion_accepted_tokens.2.1 ['7'] (by decide) (by decide)
  simpa [digitsVal, digitVal] using h

/-- Claim C3: an update call without any version token is answered by the
REST handler with the distinct missing-precondition outcome (HTTP 428)
before the service runs, leaving the store untouched; that outcome differs
from every `VersionInvalid` outcome, which remains reserved for a token
that was supplied but fails the pattern. -/
theorem controller_update_missing_header :
    (∀ (validate : Auto → List String) (store : Store) (id : String)
       (auto : UpdatePayload),
       AutoWriteController.update validate store id auto none =
         (.preconditionRequired, store))
    ∧ (∀ t : Option String,
        (ControllerUpdateResult.preconditionRequired : ControllerUpdateResult) ≠
          .handled (.versionInvalid t))
    ∧ (∀ (validate : Auto → List String) (store : Store) (id : String)
        (auto : UpdatePayload) (s : String),
        ObjectID.isValid id = true → versionPatternTest s.data = false →
        AutoWriteController.update validate store id auto (some s) =
          (.handled (.versionInvalid (some s)), store)) := by
  refine ⟨fun validate store id auto => rfl, fun t => by simp, ?_⟩
  intro validate store id auto s hid hp
  have hvu : AutoWriteService.validateUpdate validate store auto id (some s) =
      some (.versionInvalid (some s)) := by
    simp [AutoWriteService.validateUpdate, AutoWriteService.validateVersion, hp]
  have heq := update_of_validateUpdate_some validate store id auto (some s) _ hid hvu
  simp [AutoWriteController.update, heq]

/-- Concrete instantiation of the C3 theorem: the unquoted token does not
match the pattern and is answered with `VersionInvalid`, unlike the absent
header. -/
theorem controller_update_missing_header_apply :
    AutoWriteController.update validateNone store1 idA
        { auto := auto2, versionField := none } (some "na") =
      (.handled (.versionInvalid (some "na")), store1) :=
  controller_update_missing_header.2.2 validateNone store1 idA
    { auto := auto2, versionField := none } "na" (by decide) (by decide)

/-- Claim C4: the version counter of a resource starts at 0 when it is
created, a successful update returns and stores exactly the old version
plus 1 for every payload — in particular a version key supplied inside the
update payload is discarded by the `optimistic` hook — and across any
engine operation the version of a document that stays present never
decreases. -/
theorem version_counter_lifecycle :
    (∀ (validate : Auto → List String) (store : Store) (auto : Auto)
       (newId rid : String) (s' : Store),
       AutoWriteService.create validate store auto newId = (.ok rid, s') →
       Store.findById s' rid = some { fields := auto, version := 0 })
    ∧ (∀ (validate : Auto → List String) (store : Store) (id : String)
        (auto : UpdatePayload) (versionStr : Option String) (n : Int) (s' : Store)
        (doc : AutoDoc),
        Store.findById store id = some doc →
        AutoWriteService.update validate store id auto versionStr = (.ok n, s') →
        n = doc.version + 1 ∧
        (Store.findById s' id).map AutoDoc.version = some (doc.version + 1))
    ∧ (∀ (validate : Auto → List String) (s s' : Store), Step validate s s' →
        ∀ (id : String) (d d' : AutoDoc),
        Store.findById s id = some d → Store.findById s' id = some d' →
        d.version ≤ d'.version) := by
  refine ⟨?_, ?_, ?_⟩
  · intro validate store auto newId rid s' h
    obtain ⟨hr, hs⟩ := create_ok_inv validate store auto newId rid s' h
    subst hr
    subst hs
    simp [Store.findById]
  · intro validate store id auto versionStr n s' doc hdoc h
    obtain ⟨hn, hs⟩ := update_ok_inv validate store id auto versionStr n s' doc hdoc h
    subst hs
    refine ⟨hn, ?_⟩
    rw [findById_replaceId_self store id _ doc hdoc]
    simp [applyQuery_version]
  · intro validate s s' hstep id d d' h h'
    exact step_version_mono validate s s' hstep id d d' h h'

/-- Concrete instantiation of the C4 theorem: creating Alpha in the empty
store saves it at version 0, and an update whose payload smuggles in a
version key 99 still yields exactly version 6 from stored version 5. -/
theorem version_counter_lifecycle_apply :
    Store.findById ((idA, { fields := auto1, version := 0 }) :: ([] : Store)) idA =
      some { fields := auto1, version := 0 }
    ∧ ((6 : Int) = 5 + 1 ∧
       (Store.findById (AutoWriteService.update validateNone store1 idA
           { auto := auto2, versionField := some 99 } (some "\"5\"")).2 idA).map
         AutoDoc.version = some (5 + 1)) := by
  constructor
  · exact version_counter_lifecycle.1 validateNone [] auto1 idA idA _ rfl
  · exact version_counter_lifecycle.2.1 validateNone store1 idA
      { auto := auto2, versionField := some 99 } (some "\"5\"") 6 _
      { fields := auto1, version := 5 } rfl rfl

/-- Claim C5: within `#validateUpdate` the natural-key uniqueness check
runs before the existence and version checks: for an update (on a
well-formed id) whose token parses and whose candidate passes validation,
a natural key owned by a different resource yields the key-conflict error
even when the targeted id refers to no stored resource, and the caller can
then never see `AutoNotExists` or `VersionOutdated`. -/
theorem update_key_conflict_precedence (validate : Auto → List String)
    (store : Store) (id : String) (auto : UpdatePayload)
    (versionStr : Option String) (v : Option Int) (owner : ModellExists)
    (hid : ObjectID.isValid id = true)
    (hparse : AutoWriteService.validateVersion versionStr = .value v)
    (hvalidate : validate auto.auto = [])
    (hkey : AutoWriteService.checkModellExists store auto.auto = some owner)
    (howner : owner.id ≠ id) :
    (AutoWriteService.update validate store id auto versionStr).1 =
      .err (.modellExists owner.modell (some owner.id))
    ∧ (∀ i, (AutoWriteService.update validate store id auto versionStr).1 ≠
        .err (.autoNotExists i))
    ∧ (∀ i k, (AutoWriteService.update validate store id auto versionStr).1 ≠
        .err (.versionOutdated i k)) := by
  have hvu : AutoWriteService.validateUpdate validate store auto id versionStr =
      some (.modellExists owner.modell (some owner.id)) := by
    simp [AutoWriteService.validateUpdate, hparse, hvalidate, hkey, howner]
  have heq := update_of_validateUpdate_some validate store id auto versionStr _ hid hvu
  rw [heq]
  exact ⟨rfl, fun i => by simp, fun i k => by simp⟩

/-- Concrete instantiation of the C5 theorem: in `store2` the key Alpha is
owned by `idB`; an update targeting the unused id `idA` with key Alpha is
answered with the key conflict, not with `AutoNotExists`. -/
theorem update_key_conflict_precedence_apply :
    (AutoWriteService.update validateNone store2 idA
        { auto := auto1, versionField := none } (some "\"0\"")).1 =
      .err (.modellExists "Alpha" (some idB)) :=
  (update_key_conflict_precedence validateNone store2 idA
    { auto := auto1, versionField := none } (some "\"0\"") (some 0)
    { modell := "Alpha", id := idB } (by decide) rfl rfl rfl (by decide)).1

/-- Claim C6: in `#validateCreate` the natural-key uniqueness check runs
before the external-identifier check, as two independent storage checks
after validation: a candidate passing validation that conflicts on both
the natural key and the external identifier is answered with the
natural-key conflict, never with the external-identifier conflict. -/
theorem create_conflict_precedence (validate : Auto → List String)
    (store : Store) (auto : Auto) (newId : String)
    (hvalidate : validate auto = [])
    (hkey : Store.existsModell store auto.modell = true)
    (hnr : Store.existsModellnr store auto.modellnr = true) :
    (AutoWriteService.create validate store auto newId).1 =
      .err (.modellExists auto.modell none)
    ∧ (∀ nr, (AutoWriteService.create validate store auto newId).1 ≠
        .err (.modellnrExists nr)) := by
  have hvc : AutoWriteService.validateCreate validate store auto =
      some (.modellExists auto.modell none) := by
    simp [AutoWriteService.validateCreate, hvalidate, hkey]
  constructor
  · simp [AutoWriteService.create, hvc]
  · intro nr
    simp [AutoWriteService.create, hvc]

/-- Concrete instantiation of the C6 theorem: recreating Alpha over
`store1` conflicts on both unique fields and is answered with the
natural-key conflict. -/
theorem create_conflict_precedence_apply :
    (AutoWriteService.create validateNone store1 auto1 idB).1 =
      .err (.modellExists "Alpha" none) :=
  (create_conflict_precedence validateNone store1 auto1 idB rfl rfl rfl).1

/-- Claim C7: the external identifier is fixed at creation: a create
stores the candidate's identifier, and a successful update keeps the
stored identifier for every payload, also one that omits the identifier or
supplies a different value (the schema path is immutable). -/
theorem update_preserves_modellnr :
    (∀ (validate : Auto → List String) (store : Store) (auto : Auto)
       (newId rid : String) (s' : Store),
       AutoWriteService.create validate store auto newId = (.ok rid, s') →
       (Store.findById s' rid).map (fun d => d.fields.modellnr) =
         some auto.modellnr)
    ∧ (∀ (validate : Auto → List String) (store : Store) (id : String)
        (auto : UpdatePayload) (versionStr : Option String) (n : Int) (s' : Store)
        (doc : AutoDoc),
        Store.findById store id = some doc →
        AutoWriteService.update validate store id auto versionStr = (.ok n, s') →
        (Store.findById s' id).map (fun d => d.fields.modellnr) =
          some doc.fields.modellnr) := by
  constructor
  · intro validate store auto newId rid s' h
    obtain ⟨hr, hs⟩ := create_ok_inv validate store auto newId rid s' h
    subst hr
    subst hs
    simp [Store.findById]
  · intro validate store id auto versionStr n s' doc hdoc h
    obtain ⟨hn, hs⟩ := update_ok_inv validate store id auto versionStr n s' doc hdoc h
    subst hs
    rw [findById_replaceId_self store id _ doc hdoc]
    simp [applyQuery_modellnr]

/-- Concrete instantiation of the C7 theorem: a successful update whose
payload replaces the key and supplies a different external identifier
leaves the stored identifier of Alpha unchanged. -/
theorem update_preserves_modellnr_apply :
    (Store.findById (AutoWriteService.update validateNone store1 idA
        { auto := { modell := "Beta", modellnr := some "0000000000", weitere := [] },
          versionField := none } (some "\"5\"")).2 idA).map
      (fun d => d.fields.modellnr) = some (some "3897225831") :=
  update_preserves_modellnr.2 validateNone store1 idA
    { auto := { modell := "Beta", modellnr := some "0000000000", weitere := [] },
      versionField := none } (some "\"5\"") 6 _
    { fields := auto1, version := 5 } rfl rfl

/-- Claim C8: `delete` is idempotent and never fails: a malformed
identifier yields `false` with the store untouched, and deleting a stored
identifier twice yields `true` then `false`, both calls returning a plain
Boolean. -/
theorem delete_idempotent :
    (∀ (store : Store) (id : String), ObjectID.isValid id = false →
       AutoWriteService.delete store id = (false, store))
    ∧ (∀ (store : Store) (id : String) (doc : AutoDoc),
        ObjectID.isValid id = true →
        Store.findById store id = some doc →
        (AutoWriteService.delete store id).1 = true ∧
        (AutoWriteService.delete (AutoWriteService.delete store id).2 id).1 =
          false) := by
  constructor
  · intro store id h
    simp [AutoWriteService.delete, h]
  · intro store id doc hid hdoc
    have h1 : AutoWriteService.delete store id = (true, Store.eraseId store id) := by
      simp [AutoWriteService.delete, hid, hdoc]
    refine ⟨by rw [h1], ?_⟩
    rw [h1]
    have h2 : Store.findById (Store.eraseId store id) id = none := by
      rw [findById_eraseId]
      simp
    simp [AutoWriteService.delete, hid, h2]

/-- Concrete instantiation of the C8 theorem: a malformed identifier is
answered with `false` and the untouched store, and Alpha is removed once,
with the second call answering `false`. -/
theorem delete_idempotent_apply :
    AutoWriteService.delete store1 "abc" = (false, store1)
    ∧ (AutoWriteService.delete store1 idA).1 = true
    ∧ (AutoWriteService.delete (AutoWriteService.delete store1 idA).2 idA).1 =
        false := by
  refine ⟨delete_idempotent.1 store1 "abc" (by decide), ?_, ?_⟩
  · exact (delete_idempotent.2 store1 idA { fields := auto1, version := 5 }
      (by decide) rfl).1
  · exact (delete_idempotent.2 store1 idA { fields := auto1, version := 5 }
      (by decide) rfl).2

/-- Claim C9: `find` is fail-closed on unknown filter keys: if the
criteria contain any key that is neither the natural-key criterion nor one
of the two flag criteria nor in the allow-list of filterable fields, the
result is the empty sequence, for every store and every storage query
backend — so no storage query determines the outcome and no error is
raised. -/
theorem find_unknown_key_empty (runQuery : Store → DbQuery → List AutoDoc)
    (store : Store) (filter : List (String × String)) (k v : String)
    (hmem : (k, v) ∈ filter)
    (h1 : (k == "modell") = false) (h2 : (k == "javascript") = false)
    (h3 : (k == "typescript") = false)
    (h4 : exactFilterProperties.contains k = false) :
    AutoReadService.find runQuery store filter = [] := by
  have hne : ¬ filter.length = 0 := by
    intro hlen
    rw [List.length_eq_zero] at hlen
    subst hlen
    simp at hmem
  have hdb : (k, v) ∈ filter.filter
      (fun p => !(p.1 == "modell") && !(p.1 == "javascript") &&
        !(p.1 == "typescript")) := by
    rw [List.mem_filter]
    exact ⟨hmem, by simp [h1, h2, h3]⟩
  have hinv : AutoReadService.checkInvalidProperty (filter.filter
      (fun p => !(p.1 == "modell") && !(p.1 == "javascript") &&
        !(p.1 == "typescript"))) = true := by
    unfold AutoReadService.checkInvalidProperty
    rw [List.any_eq_true]
    refine ⟨k, ?_, ?_⟩
    · rw [List.mem_map]
      exact ⟨(k, v), hdb, rfl⟩
    · have hmem4 : k ∉ exactFilterProperties := by simpa using h4
      simp [hmem4]
  unfold AutoReadService.find
  rw [if_neg hne]
  simp only [hinv]
  simp

/-- Concrete instantiation of the C9 theorem: a criteria object with an
unknown key yields the empty sequence even under a backend that would
return every stored document. -/
theorem find_unknown_key_empty_apply :
    AutoReadService.find (fun s _ => s.map Prod.snd) store1
      [("unknownField", "x")] = [] :=
  find_unknown_key_empty (fun s _ => s.map Prod.snd) store1
    [("unknownField", "x")] "unknownField" "x" (by simp) (by decide) (by decide)
    (by decide) (by decide)

/-- Claim C10: an update whose id argument is not a well-formed
24-character hexadecimal identifier is answered with `AutoNotExists`
immediately, for every payload and every version token (absent or
malformed included), with the store untouched. -/
theorem update_invalid_id_short_circuit (validate : Auto → List String)
    (store : Store) (id : String) (auto : UpdatePayload)
    (versionStr : Option String) (h : ObjectID.isValid id = false) :
    AutoWriteService.update validate store id auto versionStr =
      (.err (.autoNotExists id), store) := by
  simp [AutoWriteService.update, h]

/-- Concrete instantiation of the C10 theorem: a malformed id together
with an absent version token is still `AutoNotExists`, not
`VersionInvalid`. -/
theorem update_invalid_id_short_circuit_apply :
    AutoWriteService.update validateNone store1 "nope"
        { auto := auto2, versionField := none } none =
      (.err (.autoNotExists "nope"), store1) :=
  update_invalid_id_short_circuit validateNone store1 "nope"
    { auto := auto2, versionField := none } none (by decide)
